import Mathlib

/-!
Shallow embedding of the seat-booking backend (NestJS + Prisma).

Modelled source files:
* `seatrow.service.ts` — `SeatRowService` (`getSeatRowById`, `removeSeatFromRow`,
  `addSeatToRow`, `createSeatRow`), the seat-inventory primitives over the
  denormalized per-row `seats : number[]` array.
* `booking.service.ts` (the current version, with the availability pre-check,
  passenger names, pagination and the queue-based email path) — `BookingService`
  (`createBooking`, `deleteBooking`, `updatePaymentStatusByBookingId`,
  `getAllBookings`).
* `booking.controller.ts` — `BookingController.createBooking` and its private
  `checkSeatsAvailability` quick check.

Database records are Lean structures, the store is a `DB` value, ids are `Nat`
drawn from a `nextId` counter (Prisma generates unique primary keys), timestamps
are a `now` counter.  `BadRequestException` values are the `BookingError`
inductive; each constructor carries exactly the data interpolated into the
exception message by the source.  The external blob upload is an input
(`ReceiptUpload`), since its outcome is decided outside the program.
-/

namespace BookingSeat

/-- Prisma model `SeatRow`: `seats` is the denormalized array of
currently-available seat numbers of the row. -/
structure SeatRow where
  id : Nat
  name : String
  seats : List Nat
  visible : Bool
deriving Repr, DecidableEq

/-- Prisma model `User`. -/
structure User where
  id : Nat
  name : String
  email : String
  phone : Option String
deriving Repr, DecidableEq

/-- Prisma model `SeatBooking` (the seat assignment): owned by a booking,
references a seat row by id. -/
structure SeatBooking where
  seatRowId : Nat
  seatNumber : Nat
  firstName : String
  lastName : String
deriving Repr, DecidableEq

/-- Prisma model `Booking` together with its owned `SeatBooking` rows (they are
created with the booking and cascade-deleted with it). -/
structure Booking where
  id : Nat
  userId : Nat
  totalPrice : Nat
  isPaid : Bool
  receiptUrl : Option String
  createdAt : Nat
  seats : List SeatBooking
deriving Repr, DecidableEq

/-- The persistent store. -/
structure DB where
  rows : List SeatRow
  users : List User
  bookings : List Booking
  nextId : Nat
  now : Nat
deriving Repr, DecidableEq

/-- The empty store. -/
def DB.empty : DB := { rows := [], users := [], bookings := [], nextId := 0, now := 0 }

/-- The `BadRequestException`s thrown by the modelled services; each constructor
carries the values interpolated into the exception message. -/
inductive BookingError where
  | seatRowNotFound
  | bookingNotFound
  | seatNotInRow (seatNumber : Nat) (rowName : String)
  | seatAlreadyInRow (seatNumber : Nat) (rowName : String)
  | seatNotAvailable (seatNumber : Nat) (rowName : String)
  | alreadyBooked (conflicts : List (String × Nat))
  | rowNameExists (name : String)
  | tooManySeats
deriving Repr, DecidableEq

/-- The exception message, as interpolated by the source. -/
def BookingError.message : BookingError → String
  | .seatRowNotFound => "Seat row not found"
  | .bookingNotFound => "Booking not found"
  | .seatNotInRow n rn => "Seat " ++ toString n ++ " does not exist in row " ++ rn
  | .seatAlreadyInRow n rn => "Seat " ++ toString n ++ " already exists in row " ++ rn
  | .seatNotAvailable n rn =>
    "Seat " ++ toString n ++ " is not available in row " ++ rn ++ ". Please refresh and try again."
  | .alreadyBooked cs =>
    "Booking failed: " ++
      String.intercalate "; "
        (cs.map (fun c => "Row " ++ c.1 ++ ", Seat " ++ toString c.2 ++ " is already booked"))
  | .rowNameExists n => "Seat row with name " ++ n ++ " already exists"
  | .tooManySeats => "Cannot book more than 5 seats at once"

/-- The (row name, seat number) pairs interpolated into the exception message:
which seats the error names to the caller. -/
def BookingError.namedPairs : BookingError → List (String × Nat)
  | .seatNotInRow n rn => [(rn, n)]
  | .seatAlreadyInRow n rn => [(rn, n)]
  | .seatNotAvailable n rn => [(rn, n)]
  | .alreadyBooked cs => cs
  | _ => []

/-- JavaScript `String.prototype.trim`: strip leading and trailing whitespace
(a kernel-reducible model of `String.trim`). -/
def trimName (s : String) : String :=
  String.mk (((s.data.dropWhile Char.isWhitespace).reverse.dropWhile Char.isWhitespace).reverse)

/-- Prisma `seatRow.findUnique({ where: { id } })`. -/
def findRow (db : DB) (rowId : Nat) : Option SeatRow :=
  db.rows.find? (fun r => r.id == rowId)

/-- `SeatRowService.getSeatRowById`: throws when the id resolves to no row. -/
def getSeatRowById (db : DB) (rowId : Nat) : Except BookingError SeatRow :=
  match findRow db rowId with
  | some r => .ok r
  | none => .error .seatRowNotFound

/-- Prisma `seatRow.update({ where: { id }, data: { seats } })`: persist a new
seats array for the row. -/
def updateRowSeats (db : DB) (rowId : Nat) (seats : List Nat) : DB :=
  { db with rows := db.rows.map (fun r => if r.id == rowId then { r with seats := seats } else r) }

/-- `SeatRowService.removeSeatFromRow`: fetch the row, reject a seat number not
currently in its array, otherwise persist the filtered array. -/
def removeSeatFromRow (db : DB) (rowId seatNumber : Nat) : Except BookingError DB :=
  match findRow db rowId with
  | none => .error .seatRowNotFound
  | some row =>
    if seatNumber ∈ row.seats then
      .ok (updateRowSeats db rowId (row.seats.filter (fun s => s != seatNumber)))
    else
      .error (.seatNotInRow seatNumber row.name)

/-- `SeatRowService.addSeatToRow`: fetch the row, reject a duplicate seat number,
otherwise append and sort ascending, then persist. -/
def addSeatToRow (db : DB) (rowId seatNumber : Nat) : Except BookingError DB :=
  match findRow db rowId with
  | none => .error .seatRowNotFound
  | some row =>
    if seatNumber ∈ row.seats then
      .error (.seatAlreadyInRow seatNumber row.name)
    else
      .ok (updateRowSeats db rowId
        (List.insertionSort (fun a b => a ≤ b) (row.seats ++ [seatNumber])))

/-- `SeatRowService.createSeatRow`: reject an existing name, otherwise insert a
fresh row (fresh primary id from the counter). -/
def createSeatRow (db : DB) (name : String) (seats : List Nat) :
    DB × Except BookingError SeatRow :=
  if db.rows.any (fun r => r.name == name) then
    (db, .error (.rowNameExists name))
  else
    let r : SeatRow := { id := db.nextId, name := name, seats := seats, visible := true }
    ({ db with rows := db.rows ++ [r], nextId := db.nextId + 1 }, .ok r)

/-- The listed available set of a row; empty when the row is absent. -/
def rowSeats (db : DB) (rowId : Nat) : List Nat :=
  match findRow db rowId with
  | some r => r.seats
  | none => []

/-- Whether the row id resolves to a row. -/
def rowExists (db : DB) (rowId : Nat) : Bool := (findRow db rowId).isSome

/-- `SeatSelectionDto`: one requested (row, seat) tuple with passenger names. -/
structure SeatSelectionDto where
  seatRowId : Nat
  seatNumber : Nat
  firstName : String
  lastName : String
deriving Repr, DecidableEq

/-- `CreateBookingDto`. -/
structure CreateBookingDto where
  name : String
  email : String
  phone : Option String
  seats : List SeatSelectionDto
deriving Repr, DecidableEq

/-- Outcome of the external receipt upload, an input of the model: the request
may carry no file, a file whose upload to blob storage succeeds with a public
url, or a file whose upload throws. -/
inductive ReceiptUpload where
  | noFile
  | succeeds (url : String)
  | fails
deriving Repr, DecidableEq

/-- `BookingService.createBooking`, user step: find the user by email or create
one with the supplied name and phone. -/
def findOrCreateUser (db : DB) (name email : String) (phone : Option String) : DB × User :=
  match db.users.find? (fun u => u.email == email) with
  | some u => (db, u)
  | none =>
    let u : User := { id := db.nextId, name := name, email := email, phone := phone }
    ({ db with users := db.users ++ [u], nextId := db.nextId + 1 }, u)

/-- `BookingService.createBooking`, availability pre-check loop: for each tuple
fetch the row and throw on the first tuple whose seat number is not in the
row's array. -/
def precheckSeats (db : DB) : List SeatSelectionDto → Except BookingError Unit
  | [] => .ok ()
  | s :: rest =>
    match getSeatRowById db s.seatRowId with
    | .error e => .error e
    | .ok row =>
      if s.seatNumber ∈ row.seats then precheckSeats db rest
      else .error (.seatNotAvailable s.seatNumber row.name)

/-- The seat-removal loop of `BookingService.createBooking`.  The loop body calls
`SeatRowService.removeSeatFromRow`, which issues its update through the root
prisma client (`this.prisma`), not the interactive-transaction client `tx`, so
each removal commits on its own: when a removal throws, the removals already
applied stay committed and the loop stops. -/
def removeSeats (db : DB) : List SeatSelectionDto → DB × Option BookingError
  | [] => (db, none)
  | s :: rest =>
    match removeSeatFromRow db s.seatRowId s.seatNumber with
    | .ok db1 => removeSeats db1 rest
    | .error e => (db, some e)

/-- The receipt url held by the service after the upload step: no file means
null, an upload failure is caught and logged and the url falls back to null,
a successful upload yields the public url. -/
def uploadResultUrl : ReceiptUpload → Option String
  | .noFile => none
  | .succeeds url => some url
  | .fails => none

/-- The `prisma.$transaction` callback of `BookingService.createBooking`: the
removal loop (committing outside the transaction, see `removeSeats`) followed
by `tx.booking.create` (isPaid false, trimmed passenger names, price already
computed as seats × 50). -/
def seatTransaction (db1 : DB) (user : User) (dto : CreateBookingDto)
    (receiptUrl : Option String) : DB × Except BookingError Booking :=
  match removeSeats db1 dto.seats with
  | (db2, some e) => (db2, .error e)
  | (db2, none) =>
    let b : Booking :=
      { id := db2.nextId, userId := user.id, totalPrice := dto.seats.length * 50,
        isPaid := false, receiptUrl := receiptUrl, createdAt := db2.now,
        seats := dto.seats.map (fun s =>
          { seatRowId := s.seatRowId, seatNumber := s.seatNumber,
            firstName := trimName s.firstName, lastName := trimName s.lastName }) }
    ({ db2 with bookings := db2.bookings ++ [b], nextId := db2.nextId + 1, now := db2.now + 1 },
      .ok b)

/-- `BookingService.createBooking`: find-or-create the user, run the
availability pre-check, resolve the receipt upload, then run the transaction
phase.  The returned state is what the database holds when the call returns or
throws. -/
def createBooking (db : DB) (dto : CreateBookingDto) (receipt : ReceiptUpload) :
    DB × Except BookingError Booking :=
  match precheckSeats (findOrCreateUser db dto.name dto.email dto.phone).1 dto.seats with
  | .error e => ((findOrCreateUser db dto.name dto.email dto.phone).1, .error e)
  | .ok _ =>
    seatTransaction (findOrCreateUser db dto.name dto.email dto.phone).1
      (findOrCreateUser db dto.name dto.email dto.phone).2 dto (uploadResultUrl receipt)

/-- All live seat assignments (the `seatBooking` table). -/
def liveSeats (db : DB) : List SeatBooking := db.bookings.flatMap (fun b => b.seats)

/-- The name of a row, used when formatting controller error messages (the
foreign key guarantees the row exists there). -/
def rowNameOf (db : DB) (rowId : Nat) : String :=
  match findRow db rowId with
  | some r => r.name
  | none => ""

/-- `BookingController.checkSeatsAvailability`: reject more than 5 seats, then
collect every requested pair for which a `seatBooking` row already exists and
throw one message enumerating all of them. -/
def checkSeatsAvailability (db : DB) (seats : List SeatSelectionDto) :
    Except BookingError Unit :=
  if seats.length > 5 then .error .tooManySeats
  else
    let booked := seats.filterMap (fun s =>
      match (liveSeats db).find?
          (fun sb => sb.seatRowId == s.seatRowId && sb.seatNumber == s.seatNumber) with
      | some sb => some (rowNameOf db sb.seatRowId, s.seatNumber)
      | none => none)
    if booked.isEmpty then .ok ()
    else .error (.alreadyBooked booked)

/-- `BookingController.createBooking`: the quick already-booked check, then the
service call. -/
def bookingEndpoint (db : DB) (dto : CreateBookingDto) (receipt : ReceiptUpload) :
    DB × Except BookingError Booking :=
  match checkSeatsAvailability db dto.seats with
  | .error e => (db, .error e)
  | .ok _ => createBooking db dto receipt

/-- The seat-release loop of `BookingService.deleteBooking`: each iteration
calls `SeatRowService.addSeatToRow`; a throw stops the loop (the additions made
so far stay committed, there is no surrounding transaction). -/
def addSeatsBack (db : DB) : List SeatBooking → DB × Option BookingError
  | [] => (db, none)
  | s :: rest =>
    match addSeatToRow db s.seatRowId s.seatNumber with
    | .ok db1 => addSeatsBack db1 rest
    | .error e => (db, some e)

/-- `BookingService.deleteBooking`: fetch the booking (throw when absent),
delete it (cascade deletes its `SeatBooking` rows), then run the release loop;
a release failure is logged and rethrown (`BadRequestException` passes the
catch unchanged) after the delete already committed.  Returns the number of
released seats. -/
def deleteBooking (db : DB) (bookingId : Nat) : DB × Except BookingError Nat :=
  match db.bookings.find? (fun b => b.id == bookingId) with
  | none => (db, .error .bookingNotFound)
  | some b =>
    let db1 : DB := { db with bookings := db.bookings.filter (fun x => x.id != bookingId) }
    let releaseStep := addSeatsBack db1 b.seats
    match releaseStep.2 with
    | some e => (releaseStep.1, .error e)
    | none => (releaseStep.1, .ok b.seats.length)

/-- `BookingService.updatePaymentStatusByBookingId`: fetch the booking (throw
when absent) and update its isPaid flag; the confirmation email is an external
side effect that never changes the store. -/
def setPaid (db : DB) (bookingId : Nat) (isPaid : Bool) : DB × Except BookingError Unit :=
  match db.bookings.find? (fun b => b.id == bookingId) with
  | none => (db, .error .bookingNotFound)
  | some _ =>
    let updated := db.bookings.map
      (fun b => if b.id == bookingId then { b with isPaid := isPaid } else b)
    ({ db with bookings := updated }, .ok ())

/-- Prisma `orderBy: [{ isPaid: asc }, { createdAt: desc }]` as a Bool order:
unpaid (false) first, then larger createdAt (newest) first. -/
def bookingOrder (a b : Booking) : Bool :=
  (!a.isPaid && b.isPaid) || (a.isPaid == b.isPaid && decide (b.createdAt ≤ a.createdAt))

/-- The ordering of `getAllBookings` as a relation. -/
def bookingLE (a b : Booking) : Prop := bookingOrder a b = true

instance : DecidableRel bookingLE := fun a b => inferInstanceAs (Decidable (bookingOrder a b = true))

/-- The paginated response shape of `BookingService.getAllBookings`. -/
structure BookingsPage where
  bookings : List Booking
  currentPage : Nat
  totalPages : Nat
  totalItems : Nat
  itemsPerPage : Nat
  hasNextPage : Bool
  hasPreviousPage : Bool
deriving Repr, DecidableEq

/-- `BookingService.getAllBookings(page, limit)`: count, `Math.ceil` of the
page count, ordered query with skip/take, and the pagination flags. -/
def getAllBookings (db : DB) (page limit : Nat) : BookingsPage :=
  let totalItems := db.bookings.length
  let totalPages := (totalItems + limit - 1) / limit
  let sorted := List.insertionSort bookingLE db.bookings
  let items := (sorted.drop ((page - 1) * limit)).take limit
  { bookings := items, currentPage := page, totalPages := totalPages,
    totalItems := totalItems, itemsPerPage := limit,
    hasNextPage := decide (page < totalPages), hasPreviousPage := decide (1 < page) }

/-- One exposed mutating operation, as routed by the controllers. -/
inductive Op where
  | book (dto : CreateBookingDto) (receipt : ReceiptUpload)
  | cancel (bookingId : Nat)
  | pay (bookingId : Nat) (isPaid : Bool)
  | newRow (name : String) (seats : List Nat)
  | addSeat (rowId : Nat) (seatNumber : Nat)
deriving Repr, DecidableEq

/-- The state after one exposed operation (on a throw, the state the code
leaves behind). -/
def applyOp (db : DB) : Op → DB
  | .book dto receipt => (bookingEndpoint db dto receipt).1
  | .cancel id => (deleteBooking db id).1
  | .pay id p => (setPaid db id p).1
  | .newRow name seats => (createSeatRow db name seats).1
  | .addSeat rowId seatNumber =>
    match addSeatToRow db rowId seatNumber with
    | .ok db1 => db1
    | .error _ => db

/-- Run a sequence of exposed operations from a state. -/
def runOps (db : DB) (ops : List Op) : DB := ops.foldl applyOp db

/-- States reachable from the empty store through the exposed operations. -/
def ReachableFull (db : DB) : Prop := ∃ ops : List Op, runOps DB.empty ops = db

/-- Whether an operation is the admin add-seat endpoint. -/
def Op.isAddSeat : Op → Bool
  | .addSeat _ _ => true
  | _ => false

/-- States reachable from the empty store without the admin add-seat endpoint. -/
def Reachable (db : DB) : Prop :=
  ∃ ops : List Op, (∀ o ∈ ops, o.isAddSeat = false) ∧ runOps DB.empty ops = db

/-- The consistency property of claim C2: a seat number referenced by a live
seat assignment is absent from its row's listed available set. -/
def SeatConsistency (db : DB) : Prop :=
  ∀ sb ∈ liveSeats db, sb.seatNumber ∉ rowSeats db sb.seatRowId

instance (db : DB) : Decidable (SeatConsistency db) :=
  inferInstanceAs (Decidable (∀ sb ∈ liveSeats db, sb.seatNumber ∉ rowSeats db sb.seatRowId))

deriving instance DecidableEq for Except

/-- Whether a service call threw. -/
def failed {α : Type} : Except BookingError α → Bool
  | .error _ => true
  | .ok _ => false

/-- No two live seat assignments reference the same (row, seat number) pair. -/
def UniqueLivePairs (db : DB) : Prop :=
  (liveSeats db).Pairwise (fun a b => a.seatRowId ≠ b.seatRowId ∨ a.seatNumber ≠ b.seatNumber)

/-- Every live seat assignment references an existing row (the foreign key). -/
def LiveRowsExist (db : DB) : Prop :=
  ∀ sb ∈ liveSeats db, rowExists db sb.seatRowId = true

/-- The primary ids of the stored rows. -/
def rowIds (db : DB) : List Nat := db.rows.map (fun r => r.id)

/-- Stored row ids stay below the id counter (Prisma primary keys are fresh). -/
def RowIdsFresh (db : DB) : Prop := ∀ i ∈ rowIds db, i < db.nextId

/-- The inductive invariant of the store: seat consistency strengthened with
pair uniqueness, foreign-key integrity and id freshness. -/
def Inv (db : DB) : Prop :=
  SeatConsistency db ∧ UniqueLivePairs db ∧ LiveRowsExist db ∧ RowIdsFresh db

/-! ### Basic facts about the inventory primitives -/

theorem findRow_updateRowSeats (db : DB) (rid : Nat) (seats : List Nat) (q : Nat) :
    findRow (updateRowSeats db rid seats) q
      = (findRow db q).map (fun r => if r.id == rid then { r with seats := seats } else r) := by
  unfold findRow updateRowSeats
  have hcomp : ((fun r : SeatRow => r.id == q) ∘ fun r =>
      if r.id == rid then { r with seats := seats } else r) = fun r : SeatRow => r.id == q := by
    funext r
    by_cases h : r.id == rid <;> simp [Function.comp, h]
  rw [List.find?_map, hcomp]

theorem rowSeats_update_self {db : DB} {rid : Nat} {r : SeatRow} (h : findRow db rid = some r)
    (seats : List Nat) : rowSeats (updateRowSeats db rid seats) rid = seats := by
  have h0 : List.find? (fun x => x.id == rid) db.rows = some r := h
  have hid := List.find?_some h0
  simp only [] at hid
  unfold rowSeats
  rw [findRow_updateRowSeats, h]
  simp at hid
  simp [hid]

theorem rowSeats_update_other {db : DB} {rid q : Nat} (h : q ≠ rid) (seats : List Nat) :
    rowSeats (updateRowSeats db rid seats) q = rowSeats db q := by
  unfold rowSeats
  rw [findRow_updateRowSeats]
  cases hf : findRow db q with
  | none => rfl
  | some r =>
    have h0 : List.find? (fun x => x.id == q) db.rows = some r := hf
    have hq : r.id = q := by simpa using List.find?_some h0
    simp [hq, h]

theorem rowExists_update (db : DB) (rid : Nat) (seats : List Nat) (q : Nat) :
    rowExists (updateRowSeats db rid seats) q = rowExists db q := by
  unfold rowExists
  rw [findRow_updateRowSeats]
  cases findRow db q <;> rfl

theorem rowIds_update (db : DB) (rid : Nat) (seats : List Nat) :
    rowIds (updateRowSeats db rid seats) = rowIds db := by
  unfold rowIds updateRowSeats
  simp only [List.map_map]
  congr 1
  funext r
  by_cases h : r.id == rid <;> simp [Function.comp, h]

theorem removeSeat_ok_elim {db db2 : DB} {rid s : Nat}
    (h : removeSeatFromRow db rid s = .ok db2) :
    ∃ r, findRow db rid = some r ∧ s ∈ r.seats ∧
      db2 = updateRowSeats db rid (r.seats.filter (fun x => x != s)) := by
  unfold removeSeatFromRow at h
  split at h
  · exact Except.noConfusion h
  · rename_i r hf
    split at h
    · exact ⟨r, hf, by assumption, (Except.ok.inj h).symm⟩
    · exact Except.noConfusion h

theorem addSeat_ok_elim {db db2 : DB} {rid s : Nat}
    (h : addSeatToRow db rid s = .ok db2) :
    ∃ r, findRow db rid = some r ∧ s ∉ r.seats ∧
      db2 = updateRowSeats db rid (List.insertionSort (fun a b => a ≤ b) (r.seats ++ [s])) := by
  unfold addSeatToRow at h
  split at h
  · exact Except.noConfusion h
  · rename_i r hf
    split at h
    · exact Except.noConfusion h
    · exact ⟨r, hf, by assumption, (Except.ok.inj h).symm⟩

theorem rowSeats_eq_of_findRow {db : DB} {rid : Nat} {r : SeatRow}
    (h : findRow db rid = some r) : rowSeats db rid = r.seats := by
  unfold rowSeats
  rw [h]

theorem removeSeat_ok_rowSeats {db db2 : DB} {rid s : Nat}
    (h : removeSeatFromRow db rid s = .ok db2) :
    rowSeats db2 rid = (rowSeats db rid).filter (fun x => x != s) := by
  obtain ⟨r, hf, _, hdb⟩ := removeSeat_ok_elim h
  rw [hdb, rowSeats_update_self hf, rowSeats_eq_of_findRow hf]

theorem removeSeat_ok_not_mem {db db2 : DB} {rid s : Nat}
    (h : removeSeatFromRow db rid s = .ok db2) : s ∉ rowSeats db2 rid := by
  rw [removeSeat_ok_rowSeats h]
  simp [List.mem_filter]

theorem removeSeat_ok_mem_before {db db2 : DB} {rid s : Nat}
    (h : removeSeatFromRow db rid s = .ok db2) : s ∈ rowSeats db rid := by
  obtain ⟨r, hf, hm, _⟩ := removeSeat_ok_elim h
  rw [rowSeats_eq_of_findRow hf]
  exact hm

theorem removeSeat_ok_subset {db db2 : DB} {rid s : Nat}
    (h : removeSeatFromRow db rid s = .ok db2) (q : Nat) :
    rowSeats db2 q ⊆ rowSeats db q := by
  obtain ⟨r, hf, hm, hdb⟩ := removeSeat_ok_elim h
  by_cases hq : q = rid
  · subst hq
    rw [hdb, rowSeats_update_self hf, rowSeats_eq_of_findRow hf]
    exact fun x hx => List.mem_of_mem_filter hx
  · rw [hdb, rowSeats_update_other hq]
    exact fun x hx => hx

theorem removeSeat_ok_rowExists {db db2 : DB} {rid s : Nat}
    (h : removeSeatFromRow db rid s = .ok db2) (q : Nat) :
    rowExists db2 q = rowExists db q := by
  obtain ⟨r, hf, hm, hdb⟩ := removeSeat_ok_elim h
  rw [hdb, rowExists_update]

theorem removeSeat_ok_structural {db db2 : DB} {rid s : Nat}
    (h : removeSeatFromRow db rid s = .ok db2) :
    db2.bookings = db.bookings ∧ db2.users = db.users ∧ db2.nextId = db.nextId ∧
      db2.now = db.now ∧ rowIds db2 = rowIds db := by
  obtain ⟨r, hf, hm, hdb⟩ := removeSeat_ok_elim h
  rw [hdb]
  exact ⟨rfl, rfl, rfl, rfl, rowIds_update db rid _⟩

theorem addSeat_ok_mem_iff {db db2 : DB} {rid s : Nat}
    (h : addSeatToRow db rid s = .ok db2) (x : Nat) :
    x ∈ rowSeats db2 rid ↔ (x ∈ rowSeats db rid ∨ x = s) := by
  obtain ⟨r, hf, hm, hdb⟩ := addSeat_ok_elim h
  rw [hdb, rowSeats_update_self hf, rowSeats_eq_of_findRow hf]
  simp [List.mem_insertionSort]

theorem addSeat_ok_other {db db2 : DB} {rid s : Nat}
    (h : addSeatToRow db rid s = .ok db2) {q : Nat} (hq : q ≠ rid) :
    rowSeats db2 q = rowSeats db q := by
  obtain ⟨r, hf, hm, hdb⟩ := addSeat_ok_elim h
  rw [hdb, rowSeats_update_other hq]

theorem addSeat_ok_rowExists {db db2 : DB} {rid s : Nat}
    (h : addSeatToRow db rid s = .ok db2) (q : Nat) :
    rowExists db2 q = rowExists db q := by
  obtain ⟨r, hf, hm, hdb⟩ := addSeat_ok_elim h
  rw [hdb, rowExists_update]

theorem addSeat_ok_structural {db db2 : DB} {rid s : Nat}
    (h : addSeatToRow db rid s = .ok db2) :
    db2.bookings = db.bookings ∧ db2.users = db.users ∧ db2.nextId = db.nextId ∧
      db2.now = db.now ∧ rowIds db2 = rowIds db := by
  obtain ⟨r, hf, hm, hdb⟩ := addSeat_ok_elim h
  rw [hdb]
  exact ⟨rfl, rfl, rfl, rfl, rowIds_update db rid _⟩

theorem removeSeat_failed_iff (db : DB) (rid s : Nat) :
    failed (removeSeatFromRow db rid s) = true ↔
      (rowExists db rid = false ∨ s ∉ rowSeats db rid) := by
  unfold removeSeatFromRow rowExists rowSeats
  cases hf : findRow db rid with
  | none => simp [failed]
  | some r => by_cases hm : s ∈ r.seats <;> simp [failed, hm]

theorem addSeat_failed_iff (db : DB) (rid s : Nat) :
    failed (addSeatToRow db rid s) = true ↔
      (rowExists db rid = false ∨ s ∈ rowSeats db rid) := by
  unfold addSeatToRow rowExists rowSeats
  cases hf : findRow db rid with
  | none => simp [failed]
  | some r => by_cases hm : s ∈ r.seats <;> simp [failed, hm]

/-! ### Facts about the booking-creation pipeline -/

theorem rowSeats_congr {db db2 : DB} (h : db2.rows = db.rows) (q : Nat) :
    rowSeats db2 q = rowSeats db q := by
  unfold rowSeats findRow
  rw [h]

theorem rowExists_congr {db db2 : DB} (h : db2.rows = db.rows) (q : Nat) :
    rowExists db2 q = rowExists db q := by
  unfold rowExists findRow
  rw [h]

theorem rowNameOf_congr {db db2 : DB} (h : db2.rows = db.rows) (q : Nat) :
    rowNameOf db2 q = rowNameOf db q := by
  unfold rowNameOf findRow
  rw [h]

theorem findOrCreateUser_structural (db : DB) (n e : String) (p : Option String) :
    (findOrCreateUser db n e p).1.rows = db.rows ∧
    (findOrCreateUser db n e p).1.bookings = db.bookings ∧
    db.nextId ≤ (findOrCreateUser db n e p).1.nextId := by
  unfold findOrCreateUser
  cases db.users.find? (fun u => u.email == e) with
  | none => exact ⟨rfl, rfl, Nat.le_succ _⟩
  | some u => exact ⟨rfl, rfl, Nat.le_refl _⟩

theorem removeSeats_structural : ∀ (l : List SeatSelectionDto) (db : DB),
    (removeSeats db l).1.bookings = db.bookings ∧ (removeSeats db l).1.users = db.users ∧
    (removeSeats db l).1.nextId = db.nextId ∧ (removeSeats db l).1.now = db.now ∧
    rowIds (removeSeats db l).1 = rowIds db := by
  intro l
  induction l with
  | nil => intro db; exact ⟨rfl, rfl, rfl, rfl, rfl⟩
  | cons s rest ih =>
    intro db
    unfold removeSeats
    cases hr : removeSeatFromRow db s.seatRowId s.seatNumber with
    | ok db1 =>
      obtain ⟨hb, hu, hn, hw, hi⟩ := removeSeat_ok_structural hr
      obtain ⟨ihb, ihu, ihn, ihw, ihi⟩ := ih db1
      exact ⟨ihb.trans hb, ihu.trans hu, ihn.trans hn, ihw.trans hw, ihi.trans hi⟩
    | error e => exact ⟨rfl, rfl, rfl, rfl, rfl⟩

theorem removeSeats_subset : ∀ (l : List SeatSelectionDto) (db : DB) (q : Nat),
    rowSeats (removeSeats db l).1 q ⊆ rowSeats db q := by
  intro l
  induction l with
  | nil => intro db q x hx; exact hx
  | cons s rest ih =>
    intro db q
    unfold removeSeats
    cases hr : removeSeatFromRow db s.seatRowId s.seatNumber with
    | ok db1 => exact fun x hx => removeSeat_ok_subset hr q (ih db1 q hx)
    | error e => exact fun x hx => hx

theorem removeSeats_rowExists : ∀ (l : List SeatSelectionDto) (db : DB) (q : Nat),
    rowExists (removeSeats db l).1 q = rowExists db q := by
  intro l
  induction l with
  | nil => intro db q; rfl
  | cons s rest ih =>
    intro db q
    unfold removeSeats
    cases hr : removeSeatFromRow db s.seatRowId s.seatNumber with
    | ok db1 => exact (ih db1 q).trans (removeSeat_ok_rowExists hr q)
    | error e => rfl

theorem removeSeats_ok_not_mem : ∀ (l : List SeatSelectionDto) (db db2 : DB),
    removeSeats db l = (db2, none) →
    ∀ t ∈ l, t.seatNumber ∉ rowSeats db2 t.seatRowId := by
  intro l
  induction l with
  | nil => intro db db2 _ t ht; cases ht
  | cons s rest ih =>
    intro db db2 h t ht
    unfold removeSeats at h
    cases hr : removeSeatFromRow db s.seatRowId s.seatNumber with
    | ok db1 =>
      simp only [hr] at h
      rcases List.mem_cons.1 ht with hts | htr
      · subst hts
        intro hmem
        have hsub : rowSeats db2 t.seatRowId ⊆ rowSeats db1 t.seatRowId := by
          have hss := removeSeats_subset rest db1 t.seatRowId
          rw [h] at hss
          exact hss
        exact removeSeat_ok_not_mem hr (hsub hmem)
      · exact ih db1 db2 h t htr
    | error e =>
      simp only [hr] at h
      exact Option.noConfusion (congrArg Prod.snd h)

theorem removeSeats_ok_mem_before : ∀ (l : List SeatSelectionDto) (db db2 : DB),
    removeSeats db l = (db2, none) →
    ∀ t ∈ l, t.seatNumber ∈ rowSeats db t.seatRowId ∧ rowExists db t.seatRowId = true := by
  intro l
  induction l with
  | nil => intro db db2 _ t ht; cases ht
  | cons s rest ih =>
    intro db db2 h t ht
    unfold removeSeats at h
    cases hr : removeSeatFromRow db s.seatRowId s.seatNumber with
    | ok db1 =>
      simp only [hr] at h
      rcases List.mem_cons.1 ht with hts | htr
      · subst hts
        obtain ⟨r, hf, hm, _⟩ := removeSeat_ok_elim hr
        refine ⟨removeSeat_ok_mem_before hr, ?_⟩
        unfold rowExists
        rw [hf]
        rfl
      · obtain ⟨hmem, hex⟩ := ih db1 db2 h t htr
        refine ⟨removeSeat_ok_subset hr t.seatRowId hmem, ?_⟩
        rw [← removeSeat_ok_rowExists hr t.seatRowId]
        exact hex
    | error e =>
      simp only [hr] at h
      exact Option.noConfusion (congrArg Prod.snd h)

theorem removeSeats_ok_pairwise : ∀ (l : List SeatSelectionDto) (db db2 : DB),
    removeSeats db l = (db2, none) →
    l.Pairwise (fun a b => a.seatRowId ≠ b.seatRowId ∨ a.seatNumber ≠ b.seatNumber) := by
  intro l
  induction l with
  | nil => intro db db2 _; exact List.Pairwise.nil
  | cons s rest ih =>
    intro db db2 h
    unfold removeSeats at h
    cases hr : removeSeatFromRow db s.seatRowId s.seatNumber with
    | ok db1 =>
      simp only [hr] at h
      refine List.Pairwise.cons ?_ (ih db1 db2 h)
      intro t htr
      by_cases hid : s.seatRowId = t.seatRowId
      · by_cases hnum : s.seatNumber = t.seatNumber
        · exfalso
          have hmem := (removeSeats_ok_mem_before rest db1 db2 h t htr).1
          rw [← hid, ← hnum] at hmem
          exact removeSeat_ok_not_mem hr hmem
        · exact Or.inr hnum
      · exact Or.inl hid
    | error e =>
      simp only [hr] at h
      exact Option.noConfusion (congrArg Prod.snd h)

theorem seatTransaction_ok_elim {db1 db3 : DB} {user : User} {dto : CreateBookingDto}
    {receiptUrl : Option String} {b : Booking}
    (h : seatTransaction db1 user dto receiptUrl = (db3, .ok b)) :
    ∃ db2, removeSeats db1 dto.seats = (db2, none) ∧
      b = { id := db2.nextId, userId := user.id, totalPrice := dto.seats.length * 50,
            isPaid := false, receiptUrl := receiptUrl, createdAt := db2.now,
            seats := dto.seats.map (fun s =>
              { seatRowId := s.seatRowId, seatNumber := s.seatNumber,
                firstName := trimName s.firstName, lastName := trimName s.lastName }) } ∧
      db3 = { db2 with bookings := db2.bookings ++ [b],
                       nextId := db2.nextId + 1, now := db2.now + 1 } := by
  unfold seatTransaction at h
  split at h
  · exact absurd (congrArg Prod.snd h) (by simp)
  · rename_i db2 heq
    injection h with h1 h2
    injection h2 with h2
    refine ⟨db2, heq, h2.symm, ?_⟩
    rw [← h1, h2]

theorem seatTransaction_users (db1 : DB) (user : User) (dto : CreateBookingDto)
    (receiptUrl : Option String) :
    (seatTransaction db1 user dto receiptUrl).1.users = db1.users := by
  unfold seatTransaction
  cases hr : removeSeats db1 dto.seats with
  | mk db2 o =>
    have husers : db2.users = db1.users := by
      have := (removeSeats_structural dto.seats db1).2.1
      rw [hr] at this
      exact this
    cases o with
    | none => exact husers
    | some e => exact husers

theorem createBooking_ok_fields {db db3 : DB} {dto : CreateBookingDto}
    {receipt : ReceiptUpload} {b : Booking}
    (h : createBooking db dto receipt = (db3, .ok b)) :
    b.totalPrice = dto.seats.length * 50 ∧ b.isPaid = false ∧
    b.receiptUrl = uploadResultUrl receipt ∧ b ∈ db3.bookings ∧
    b.userId = (findOrCreateUser db dto.name dto.email dto.phone).2.id := by
  unfold createBooking at h
  split at h
  · exact absurd (congrArg Prod.snd h) (by simp)
  · obtain ⟨db2, hrm, hb, hdb3⟩ := seatTransaction_ok_elim h
    subst hb
    refine ⟨rfl, rfl, rfl, ?_, rfl⟩
    rw [hdb3]
    simp

theorem createBooking_users (db : DB) (dto : CreateBookingDto) (receipt : ReceiptUpload) :
    (createBooking db dto receipt).1.users
      = (findOrCreateUser db dto.name dto.email dto.phone).1.users := by
  unfold createBooking
  split
  · rfl
  · exact seatTransaction_users _ _ dto (uploadResultUrl receipt)

/-! ### Concrete stores and requests used by witnesses and counterexamples -/

/-- A store holding one row A with seats 1, 2, 3 (as after createSeatRow on the
empty store). -/
def dbA : DB :=
  { rows := [{ id := 0, name := "A", seats := [1, 2, 3], visible := true }],
    users := [], bookings := [], nextId := 1, now := 0 }

/-- dbA after seat 1 was removed from row A. -/
def dbA1 : DB :=
  { rows := [{ id := 0, name := "A", seats := [2, 3], visible := true }],
    users := [], bookings := [], nextId := 1, now := 0 }

/-- dbA1 after seat 1 was added back to row A. -/
def dbA2 : DB :=
  { rows := [{ id := 0, name := "A", seats := [1, 2, 3], visible := true }],
    users := [], bookings := [], nextId := 1, now := 0 }

/-- A request that lists the same (row A, seat 1) tuple twice. -/
def dupDto : CreateBookingDto :=
  { name := "n", email := "e", phone := none,
    seats := [ { seatRowId := 0, seatNumber := 1, firstName := "f", lastName := "l" },
               { seatRowId := 0, seatNumber := 1, firstName := "g", lastName := "m" } ] }

/-- A request for two seats (10 and 11) that row A does not offer. -/
def twoBadDto : CreateBookingDto :=
  { name := "n", email := "e", phone := none,
    seats := [ { seatRowId := 0, seatNumber := 10, firstName := "f", lastName := "l" },
               { seatRowId := 0, seatNumber := 11, firstName := "g", lastName := "m" } ] }

/-! ### Claim theorems: inventory primitives -/

/-- C6: for every row and seat, after a successful removeSeat the seat is not in
the row's listed available set, and after a subsequent successful addSeat it is
in the listed available set again. -/
theorem c6_remove_add_roundtrip (db : DB) (rid s : Nat) (db2 : DB)
    (h : removeSeatFromRow db rid s = .ok db2) :
    s ∉ rowSeats db2 rid ∧
      ∀ db3, addSeatToRow db2 rid s = .ok db3 → s ∈ rowSeats db3 rid := by
  refine ⟨removeSeat_ok_not_mem h, fun db3 h3 => ?_⟩
  rw [addSeat_ok_mem_iff h3]
  exact Or.inr rfl

/-- Witness for C6 at row A, seat 1. -/
theorem c6_witness : (1 ∉ rowSeats dbA1 0) ∧ 1 ∈ rowSeats dbA2 0 :=
  ⟨(c6_remove_add_roundtrip dbA 0 1 dbA1 (by decide)).1,
   (c6_remove_add_roundtrip dbA 0 1 dbA1 (by decide)).2 dbA2 (by decide)⟩

/-- C7: removeSeat fails exactly when the row is missing or the seat is not in
the row's available set; addSeat fails exactly when the row is missing or the
seat is already in the available set; hence a second removeSeat immediately
after a successful one fails. -/
theorem c7_primitive_error_contract (db : DB) (rid s : Nat) :
    (failed (removeSeatFromRow db rid s) = true ↔
        (rowExists db rid = false ∨ s ∉ rowSeats db rid)) ∧
    (failed (addSeatToRow db rid s) = true ↔
        (rowExists db rid = false ∨ s ∈ rowSeats db rid)) ∧
    (∀ db2, removeSeatFromRow db rid s = .ok db2 →
        failed (removeSeatFromRow db2 rid s) = true) := by
  refine ⟨removeSeat_failed_iff db rid s, addSeat_failed_iff db rid s, fun db2 h => ?_⟩
  exact (removeSeat_failed_iff db2 rid s).2 (Or.inr (removeSeat_ok_not_mem h))

/-- Witness for C7: the second removeSeat of seat 1 from row A fails. -/
theorem c7_witness : failed (removeSeatFromRow dbA1 0 1) = true :=
  (c7_primitive_error_contract dbA 0 1).2.2 dbA1 (by decide)

/-! ### Claim theorems: booking creation atomicity (C1) -/

/-- C1 (the code at the failing input): a request listing (row A, seat 1) twice
passes the pre-check, the second removeSeat fails inside the `$transaction`
callback, the call throws and creates no booking — but because the removals run
on the root prisma client rather than the transaction client, the first
removal persists: seat 1 is gone from row A afterwards, contradicting
all-or-nothing abort. -/
theorem c1_duplicate_tuple_partial_removal_persists :
    1 ∈ rowSeats dbA 0 ∧
    failed (bookingEndpoint dbA dupDto ReceiptUpload.noFile).2 = true ∧
    1 ∉ rowSeats (bookingEndpoint dbA dupDto ReceiptUpload.noFile).1 0 ∧
    (bookingEndpoint dbA dupDto ReceiptUpload.noFile).1.bookings = [] :=
  ⟨by decide, by decide, by decide, by decide⟩

/-! ### Claim theorems: pre-check error reporting (C3) -/

/-- C3 (counterexample): with both requested seats missing from row A's
available set (and no existing seatBooking rows), the call aborts naming only
the first conflicting pair (A, 10); the second conflicting pair (A, 11) is not
named. -/
theorem c3_counterexample :
    (bookingEndpoint dbA twoBadDto ReceiptUpload.noFile).2
        = Except.error (BookingError.seatNotAvailable 10 "A") ∧
    11 ∉ rowSeats dbA 0 ∧
    ("A", 11) ∉ (BookingError.seatNotAvailable 10 "A").namedPairs :=
  ⟨by decide, by decide, by decide⟩

/-! ### Claim theorems: booking fields (C8), upload failure (C4), user reuse (C10) -/

/-- A request for seat 1 of row A (a single valid tuple). -/
def okDto : CreateBookingDto :=
  { name := "n", email := "e", phone := none,
    seats := [ { seatRowId := 0, seatNumber := 1, firstName := "f", lastName := "l" } ] }

/-- The booking persisted by booking okDto against dbA. -/
def okBooking : Booking :=
  { id := 2, userId := 1, totalPrice := 50, isPaid := false, receiptUrl := none,
    createdAt := 0,
    seats := [{ seatRowId := 0, seatNumber := 1, firstName := "f", lastName := "l" }] }

/-- The store after booking okDto against dbA. -/
def dbAfterBooking : DB :=
  { rows := [{ id := 0, name := "A", seats := [2, 3], visible := true }],
    users := [{ id := 1, name := "n", email := "e", phone := none }],
    bookings := [okBooking], nextId := 3, now := 1 }

/-- C8: every successful createBooking with n seats persists a booking priced
n × 50 with its paid flag false. -/
theorem c8_price_and_paid_flag (db : DB) (dto : CreateBookingDto) (receipt : ReceiptUpload)
    (db3 : DB) (b : Booking) (h : createBooking db dto receipt = (db3, .ok b)) :
    b.totalPrice = dto.seats.length * 50 ∧ b.isPaid = false ∧ b ∈ db3.bookings := by
  obtain ⟨h1, h2, _, h4, _⟩ := createBooking_ok_fields h
  exact ⟨h1, h2, h4⟩

/-- Witness for C8: one seat, price 50, unpaid. -/
theorem c8_witness :
    okBooking.totalPrice = okDto.seats.length * 50 ∧ okBooking.isPaid = false ∧
      okBooking ∈ dbAfterBooking.bookings :=
  c8_price_and_paid_flag dbA okDto ReceiptUpload.noFile dbAfterBooking okBooking (by decide)

/-- C4: a failing receipt upload is swallowed: the call behaves exactly like a
call without a receipt file, and a successful booking then carries a null
receipt reference. -/
theorem c4_upload_failure_nonfatal (db : DB) (dto : CreateBookingDto) :
    createBooking db dto ReceiptUpload.fails = createBooking db dto ReceiptUpload.noFile ∧
    ∀ db3 b, createBooking db dto ReceiptUpload.fails = (db3, .ok b) → b.receiptUrl = none := by
  refine ⟨rfl, fun db3 b h => ?_⟩
  exact (createBooking_ok_fields h).2.2.1

/-- Witness for C4 at dbA and okDto. -/
theorem c4_witness :
    createBooking dbA okDto ReceiptUpload.fails = createBooking dbA okDto ReceiptUpload.noFile ∧
      okBooking.receiptUrl = none :=
  ⟨(c4_upload_failure_nonfatal dbA okDto).1,
   (c4_upload_failure_nonfatal dbA okDto).2 dbAfterBooking okBooking (by decide)⟩

/-- C10: when a user with the request email exists it is reused unchanged (the
stored user list is untouched and the booking references its id, whatever name
and phone the request supplies); a new user record with the supplied name and
phone is appended only when no user has that email. -/
theorem c10_existing_user_reused (db : DB) (dto : CreateBookingDto) (receipt : ReceiptUpload) :
    (∀ u, db.users.find? (fun x => x.email == dto.email) = some u →
      (createBooking db dto receipt).1.users = db.users ∧
      ∀ db3 b, createBooking db dto receipt = (db3, .ok b) → b.userId = u.id) ∧
    (db.users.find? (fun x => x.email == dto.email) = none →
      (createBooking db dto receipt).1.users
        = db.users ++ [{ id := db.nextId, name := dto.name, email := dto.email,
                         phone := dto.phone }]) := by
  constructor
  · intro u hu
    constructor
    · rw [createBooking_users]
      simp [findOrCreateUser, hu]
    · intro db3 b h
      have hid := (createBooking_ok_fields h).2.2.2.2
      rw [hid]
      simp [findOrCreateUser, hu]
  · intro hnone
    rw [createBooking_users]
    simp [findOrCreateUser, hnone]

/-- A second request with the same email but different name and phone, for
seat 2 of row A. -/
def okDto2 : CreateBookingDto :=
  { name := "different", email := "e", phone := some "p",
    seats := [ { seatRowId := 0, seatNumber := 2, firstName := "f", lastName := "l" } ] }

/-- The booking persisted by booking okDto2 against dbAfterBooking. -/
def okBooking2 : Booking :=
  { id := 3, userId := 1, totalPrice := 50, isPaid := false, receiptUrl := none,
    createdAt := 1,
    seats := [{ seatRowId := 0, seatNumber := 2, firstName := "f", lastName := "l" }] }

/-- The store after booking okDto2 against dbAfterBooking. -/
def dbAfterBooking2 : DB :=
  { rows := [{ id := 0, name := "A", seats := [3], visible := true }],
    users := [{ id := 1, name := "n", email := "e", phone := none }],
    bookings := [okBooking, okBooking2], nextId := 4, now := 2 }

/-- Witness for C10: the second booking by the same email reuses user 1 and
leaves the stored user record (name n, no phone) unchanged. -/
theorem c10_witness :
    (createBooking dbAfterBooking okDto2 ReceiptUpload.noFile).1.users = dbAfterBooking.users ∧
    okBooking2.userId = ({ id := 1, name := "n", email := "e", phone := none } : User).id :=
  ⟨((c10_existing_user_reused dbAfterBooking okDto2 ReceiptUpload.noFile).1
      { id := 1, name := "n", email := "e", phone := none } (by decide)).1,
   ((c10_existing_user_reused dbAfterBooking okDto2 ReceiptUpload.noFile).1
      { id := 1, name := "n", email := "e", phone := none } (by decide)).2
      dbAfterBooking2 okBooking2 (by decide)⟩

/-! ### Claim theorems: the amended C3 -/

theorem precheck_append_fail (db : DB) (rest : List SeatSelectionDto) (s : SeatSelectionDto)
    (hrow : rowExists db s.seatRowId = true)
    (hseat : s.seatNumber ∉ rowSeats db s.seatRowId) :
    ∀ pre : List SeatSelectionDto,
      (∀ t ∈ pre, rowExists db t.seatRowId = true ∧ t.seatNumber ∈ rowSeats db t.seatRowId) →
      precheckSeats db (pre ++ s :: rest)
        = .error (.seatNotAvailable s.seatNumber (rowNameOf db s.seatRowId)) := by
  intro pre
  induction pre with
  | nil =>
    intro _
    rw [List.nil_append]
    cases hf : findRow db s.seatRowId with
    | none =>
      unfold rowExists at hrow
      rw [hf] at hrow
      simp at hrow
    | some r =>
      have hmem : s.seatNumber ∉ r.seats := by
        rw [rowSeats_eq_of_findRow hf] at hseat
        exact hseat
      have hname : rowNameOf db s.seatRowId = r.name := by
        unfold rowNameOf
        rw [hf]
      rw [hname]
      simp [precheckSeats, getSeatRowById, hf, hmem]
  | cons t pre ih =>
    intro hall
    obtain ⟨hex, hmem⟩ := hall t (List.mem_cons_self t pre)
    rw [List.cons_append]
    cases hf : findRow db t.seatRowId with
    | none =>
      unfold rowExists at hex
      rw [hf] at hex
      simp at hex
    | some r =>
      have hm : t.seatNumber ∈ r.seats := by
        rw [rowSeats_eq_of_findRow hf] at hmem
        exact hmem
      have hrest := ih (fun x hx => hall x (List.mem_cons_of_mem t hx))
      simp [precheckSeats, getSeatRowById, hf, hm, hrest]

/-- C3 (amended): when the controller quick check passes, every tuple before
position k references an existing row with the seat still listed, and tuple k
references an existing row whose listed set lacks its seat, the call aborts
with a BadRequestException naming exactly that one row/seat pair — not every
conflicting pair — and the rows and bookings are unchanged (only the
find-or-create user step may have persisted a new User record). -/
theorem c3_precheck_names_first_failing (db : DB) (dto : CreateBookingDto)
    (receipt : ReceiptUpload) (pre rest : List SeatSelectionDto) (s : SeatSelectionDto)
    (hsplit : dto.seats = pre ++ s :: rest)
    (hpre : ∀ t ∈ pre, rowExists db t.seatRowId = true ∧ t.seatNumber ∈ rowSeats db t.seatRowId)
    (hrow : rowExists db s.seatRowId = true)
    (hseat : s.seatNumber ∉ rowSeats db s.seatRowId)
    (hquick : checkSeatsAvailability db dto.seats = .ok ()) :
    (bookingEndpoint db dto receipt).2
        = .error (.seatNotAvailable s.seatNumber (rowNameOf db s.seatRowId)) ∧
    (bookingEndpoint db dto receipt).1.rows = db.rows ∧
    (bookingEndpoint db dto receipt).1.bookings = db.bookings ∧
    (BookingError.seatNotAvailable s.seatNumber (rowNameOf db s.seatRowId)).namedPairs
        = [(rowNameOf db s.seatRowId, s.seatNumber)] := by
  obtain ⟨hrows, hbooks, _⟩ := findOrCreateUser_structural db dto.name dto.email dto.phone
  have hpc : precheckSeats (findOrCreateUser db dto.name dto.email dto.phone).1 dto.seats
      = .error (.seatNotAvailable s.seatNumber (rowNameOf db s.seatRowId)) := by
    rw [hsplit, ← rowNameOf_congr hrows s.seatRowId]
    apply precheck_append_fail
    · rw [rowExists_congr hrows]
      exact hrow
    · rw [rowSeats_congr hrows]
      exact hseat
    · intro t ht
      obtain ⟨h1, h2⟩ := hpre t ht
      rw [rowExists_congr hrows, rowSeats_congr hrows]
      exact ⟨h1, h2⟩
  have hend : bookingEndpoint db dto receipt
      = ((findOrCreateUser db dto.name dto.email dto.phone).1,
         .error (.seatNotAvailable s.seatNumber (rowNameOf db s.seatRowId))) := by
    unfold bookingEndpoint
    rw [hquick]
    unfold createBooking
    rw [hpc]
  rw [hend]
  exact ⟨rfl, hrows, hbooks, rfl⟩

/-- The first tuple of twoBadDto. -/
def badSeatA : SeatSelectionDto := { seatRowId := 0, seatNumber := 10, firstName := "f", lastName := "l" }

/-- The second tuple of twoBadDto. -/
def badSeatB : SeatSelectionDto := { seatRowId := 0, seatNumber := 11, firstName := "g", lastName := "m" }

/-- Witness for the amended C3 at dbA and twoBadDto. -/
theorem c3_witness :
    (bookingEndpoint dbA twoBadDto ReceiptUpload.noFile).2
        = .error (.seatNotAvailable 10 (rowNameOf dbA 0)) ∧
    (bookingEndpoint dbA twoBadDto ReceiptUpload.noFile).1.rows = dbA.rows ∧
    (bookingEndpoint dbA twoBadDto ReceiptUpload.noFile).1.bookings = dbA.bookings ∧
    (BookingError.seatNotAvailable 10 (rowNameOf dbA 0)).namedPairs
        = [(rowNameOf dbA 0, 10)] :=
  c3_precheck_names_first_failing dbA twoBadDto ReceiptUpload.noFile [] [badSeatB] badSeatA
    (by decide) (by decide) (by decide) (by decide) (by decide)

/-! ### Claim theorems: cancellation with a missing row (C5) -/

theorem addSeatsBack_bookings : ∀ (l : List SeatBooking) (db : DB),
    (addSeatsBack db l).1.bookings = db.bookings ∧ (addSeatsBack db l).1.users = db.users ∧
    (addSeatsBack db l).1.nextId = db.nextId ∧ (addSeatsBack db l).1.now = db.now ∧
    rowIds (addSeatsBack db l).1 = rowIds db := by
  intro l
  induction l with
  | nil => intro db; exact ⟨rfl, rfl, rfl, rfl, rfl⟩
  | cons s rest ih =>
    intro db
    unfold addSeatsBack
    cases ha : addSeatToRow db s.seatRowId s.seatNumber with
    | ok db1 =>
      obtain ⟨hb, hu, hn, hw, hi⟩ := addSeat_ok_structural ha
      obtain ⟨ihb, ihu, ihn, ihw, ihi⟩ := ih db1
      exact ⟨ihb.trans hb, ihu.trans hu, ihn.trans hn, ihw.trans hw, ihi.trans hi⟩
    | error e => exact ⟨rfl, rfl, rfl, rfl, rfl⟩

theorem addSeatsBack_dangling_fails : ∀ (l : List SeatBooking) (db : DB),
    (∃ t ∈ l, rowExists db t.seatRowId = false) →
    (addSeatsBack db l).2.isSome = true := by
  intro l
  induction l with
  | nil => intro db h; obtain ⟨t, ht, _⟩ := h; cases ht
  | cons s rest ih =>
    intro db h
    obtain ⟨t, ht, hdangling⟩ := h
    unfold addSeatsBack
    cases ha : addSeatToRow db s.seatRowId s.seatNumber with
    | error e => rfl
    | ok db1 =>
      rcases List.mem_cons.1 ht with hts | htr
      · exfalso
        subst hts
        obtain ⟨r, hf, _, _⟩ := addSeat_ok_elim ha
        unfold rowExists at hdangling
        rw [hf] at hdangling
        cases hdangling
      · apply ih db1
        refine ⟨t, htr, ?_⟩
        rw [addSeat_ok_rowExists ha]
        exact hdangling

/-- C5 (amended): when an existing booking has a seat assignment referencing a
row that no longer exists, deleteBooking throws — the failure is surfaced to
the caller, not swallowed — while the booking itself is already deleted (the
delete committed before the release loop; releases made before the failure
persist, the remaining seats are not released). -/
theorem c5_delete_with_missing_row_fails_but_deletes (db : DB) (bookingId : Nat) (b : Booking)
    (hfind : db.bookings.find? (fun x => x.id == bookingId) = some b)
    (t : SeatBooking) (ht : t ∈ b.seats) (hdangling : rowExists db t.seatRowId = false) :
    failed (deleteBooking db bookingId).2 = true ∧
    ∀ x ∈ (deleteBooking db bookingId).1.bookings, x.id ≠ bookingId := by
  unfold deleteBooking
  simp only [hfind]
  have hdangling1 : rowExists
      { db with bookings := db.bookings.filter (fun x => x.id != bookingId) } t.seatRowId = false :=
    hdangling
  have hsome := addSeatsBack_dangling_fails b.seats
    { db with bookings := db.bookings.filter (fun x => x.id != bookingId) } ⟨t, ht, hdangling1⟩
  have hbooks := (addSeatsBack_bookings b.seats
    { db with bookings := db.bookings.filter (fun x => x.id != bookingId) }).1
  cases hrel : (addSeatsBack { db with bookings := db.bookings.filter (fun x => x.id != bookingId) } b.seats).2 with
  | none => rw [hrel] at hsome; cases hsome
  | some e =>
    simp only [hrel]
    constructor
    · rfl
    · intro x hx
      rw [hbooks] at hx
      have hxf := (List.mem_filter.1 hx).2
      simp at hxf
      exact hxf

/-- A store whose only booking holds a seat of the missing row 99 first and a
seat of the existing row 0 second. -/
def dbDangling : DB :=
  { rows := [{ id := 0, name := "A", seats := [], visible := true }],
    users := [{ id := 1, name := "u", email := "e", phone := none }],
    bookings := [{ id := 2, userId := 1, totalPrice := 100, isPaid := false,
                   receiptUrl := none, createdAt := 0,
                   seats := [{ seatRowId := 99, seatNumber := 2, firstName := "g", lastName := "m" },
                             { seatRowId := 0, seatNumber := 1, firstName := "f", lastName := "l" }] }],
    nextId := 6, now := 1 }

/-- C5 (counterexample): deleting the booking of dbDangling surfaces the
row-not-found error to the caller instead of completing successfully; the
booking is gone but the remaining seat (row 0, seat 1) was not released. -/
theorem c5_counterexample :
    (deleteBooking dbDangling 2).2 = .error .seatRowNotFound ∧
    (deleteBooking dbDangling 2).1.bookings = [] ∧
    1 ∉ rowSeats (deleteBooking dbDangling 2).1 0 :=
  ⟨by decide, by decide, by decide⟩

/-- Witness for the amended C5 at dbDangling. -/
theorem c5_witness : failed (deleteBooking dbDangling 2).2 = true :=
  (c5_delete_with_missing_row_fails_but_deletes dbDangling 2
      { id := 2, userId := 1, totalPrice := 100, isPaid := false,
        receiptUrl := none, createdAt := 0,
        seats := [{ seatRowId := 99, seatNumber := 2, firstName := "g", lastName := "m" },
                  { seatRowId := 0, seatNumber := 1, firstName := "f", lastName := "l" }] }
      (by decide)
      { seatRowId := 99, seatNumber := 2, firstName := "g", lastName := "m" }
      (by decide) (by decide)).1

/-! ### Claim theorems: list-bookings order and pagination (C9) -/

instance : IsTotal Booking bookingLE := ⟨by
  intro a b
  unfold bookingLE bookingOrder
  cases ha : a.isPaid <;> cases hb : b.isPaid <;> simp [ha, hb] <;> omega⟩

instance : IsTrans Booking bookingLE := ⟨by
  intro a b c hab hbc
  unfold bookingLE bookingOrder at hab hbc ⊢
  cases ha : a.isPaid <;> cases hb : b.isPaid <;> cases hc : c.isPaid <;>
    simp [ha, hb, hc] at hab hbc ⊢ <;> omega⟩

/-- C9: list-bookings returns its page sorted unpaid-first then newest-first,
and with 7 stored bookings and pageSize 5, page 1 holds 5 items with a next
page and page 2 holds 2 items with no next page. -/
theorem c9_pagination_order (db : DB) (page limit : Nat) :
    List.Pairwise bookingLE (getAllBookings db page limit).bookings ∧
    (db.bookings.length = 7 →
      (getAllBookings db 1 5).bookings.length = 5 ∧
      (getAllBookings db 1 5).hasNextPage = true ∧
      (getAllBookings db 2 5).bookings.length = 2 ∧
      (getAllBookings db 2 5).hasNextPage = false) := by
  constructor
  · exact List.Pairwise.sublist
      ((List.take_sublist _ _).trans (List.drop_sublist _ _))
      (List.sorted_insertionSort bookingLE db.bookings)
  · intro h7
    unfold getAllBookings
    simp [List.length_take, List.length_drop, List.length_insertionSort, h7]

/-- Seven stored bookings with distinct creation times and mixed paid flags. -/
def db7 : DB :=
  { rows := [], users := [],
    bookings :=
      [ { id := 0, userId := 0, totalPrice := 50, isPaid := false, receiptUrl := none,
          createdAt := 0, seats := [] },
        { id := 1, userId := 0, totalPrice := 50, isPaid := true, receiptUrl := none,
          createdAt := 1, seats := [] },
        { id := 2, userId := 0, totalPrice := 50, isPaid := false, receiptUrl := none,
          createdAt := 2, seats := [] },
        { id := 3, userId := 0, totalPrice := 50, isPaid := true, receiptUrl := none,
          createdAt := 3, seats := [] },
        { id := 4, userId := 0, totalPrice := 50, isPaid := false, receiptUrl := none,
          createdAt := 4, seats := [] },
        { id := 5, userId := 0, totalPrice := 50, isPaid := false, receiptUrl := none,
          createdAt := 5, seats := [] },
        { id := 6, userId := 0, totalPrice := 50, isPaid := true, receiptUrl := none,
          createdAt := 6, seats := [] } ],
    nextId := 7, now := 7 }

/-- Witness for C9 at db7. -/
theorem c9_witness :
    (getAllBookings db7 1 5).bookings.length = 5 ∧
    (getAllBookings db7 1 5).hasNextPage = true ∧
    (getAllBookings db7 2 5).bookings.length = 2 ∧
    (getAllBookings db7 2 5).hasNextPage = false :=
  (c9_pagination_order db7 1 5).2 (by decide)

/-! ### Claim theorems: the seat-consistency invariant (C2) -/

theorem liveSeats_of_bookings_eq {db db2 : DB} (h : db2.bookings = db.bookings) :
    liveSeats db2 = liveSeats db := by
  unfold liveSeats
  rw [h]

theorem liveSeats_append_booking (db : DB) (b : Booking) (n w : Nat) :
    liveSeats { db with bookings := db.bookings ++ [b], nextId := n, now := w }
      = liveSeats db ++ b.seats := by
  unfold liveSeats
  show (db.bookings ++ [b]).flatMap (fun x => x.seats) = _
  rw [List.flatMap_append]
  simp

theorem liveSeats_filter_sublist (l : List Booking) (p : Booking → Bool) :
    ((l.filter p).flatMap (fun b => b.seats)).Sublist (l.flatMap (fun b => b.seats)) := by
  induction l with
  | nil => exact List.Sublist.refl _
  | cons x xs ih =>
    rw [List.flatMap_cons, List.filter_cons]
    by_cases hp : p x = true
    · rw [if_pos hp, List.flatMap_cons]
      exact List.Sublist.append_left ih x.seats
    · rw [if_neg hp]
      exact ih.trans (List.sublist_append_right x.seats _)

theorem Inv_shrink {db db2 : DB} (hbook : db2.bookings = db.bookings)
    (hsub : ∀ q, rowSeats db2 q ⊆ rowSeats db q)
    (hex : ∀ q, rowExists db2 q = rowExists db q)
    (hids : rowIds db2 = rowIds db) (hnext : db.nextId ≤ db2.nextId)
    (h : Inv db) : Inv db2 := by
  obtain ⟨hc, hu, hl, hf⟩ := h
  have hlive : liveSeats db2 = liveSeats db := liveSeats_of_bookings_eq hbook
  refine ⟨?_, ?_, ?_, ?_⟩
  · intro sb hsb hmem
    rw [hlive] at hsb
    exact hc sb hsb (hsub sb.seatRowId hmem)
  · unfold UniqueLivePairs
    rw [hlive]
    exact hu
  · intro sb hsb
    rw [hlive] at hsb
    rw [hex]
    exact hl sb hsb
  · intro i hi
    rw [hids] at hi
    exact Nat.lt_of_lt_of_le (hf i hi) hnext

theorem inv_removeSeats_state (l : List SeatSelectionDto) (db : DB) (h : Inv db) :
    Inv (removeSeats db l).1 := by
  obtain ⟨hb, hu2, hn, hw, hi⟩ := removeSeats_structural l db
  exact Inv_shrink hb (removeSeats_subset l db) (removeSeats_rowExists l db) hi
    (Nat.le_of_eq hn.symm) h

theorem Inv_append_booking (db2 : DB) (b : Booking) (hinv : Inv db2)
    (hb_not : ∀ sb ∈ b.seats, sb.seatNumber ∉ rowSeats db2 sb.seatRowId)
    (hb_ex : ∀ sb ∈ b.seats, rowExists db2 sb.seatRowId = true)
    (hb_pw : b.seats.Pairwise (fun a c => a.seatRowId ≠ c.seatRowId ∨ a.seatNumber ≠ c.seatNumber))
    (hb_cross : ∀ sb ∈ liveSeats db2, ∀ t ∈ b.seats,
        sb.seatRowId ≠ t.seatRowId ∨ sb.seatNumber ≠ t.seatNumber) :
    Inv { db2 with bookings := db2.bookings ++ [b],
                   nextId := db2.nextId + 1, now := db2.now + 1 } := by
  obtain ⟨hc, hu, hl, hf⟩ := hinv
  have hlive := liveSeats_append_booking db2 b (db2.nextId + 1) (db2.now + 1)
  refine ⟨?_, ?_, ?_, ?_⟩
  · intro sb hsb
    rw [hlive] at hsb
    rcases List.mem_append.1 hsb with h1 | h2
    · exact hc sb h1
    · exact hb_not sb h2
  · unfold UniqueLivePairs
    rw [hlive, List.pairwise_append]
    exact ⟨hu, hb_pw, hb_cross⟩
  · intro sb hsb
    rw [hlive] at hsb
    rcases List.mem_append.1 hsb with h1 | h2
    · exact hl sb h1
    · exact hb_ex sb h2
  · intro i hi
    exact Nat.lt_succ_of_lt (hf i hi)

theorem inv_seatTransaction (db1 : DB) (user : User) (dto : CreateBookingDto)
    (receiptUrl : Option String) (h : Inv db1) :
    Inv (seatTransaction db1 user dto receiptUrl).1 := by
  unfold seatTransaction
  cases hrm : removeSeats db1 dto.seats with
  | mk db2 o =>
    have hinv2 : Inv db2 := by
      have hst := inv_removeSeats_state dto.seats db1 h
      rw [hrm] at hst
      exact hst
    have hb2 : db2.bookings = db1.bookings := by
      have hst := (removeSeats_structural dto.seats db1).1
      rw [hrm] at hst
      exact hst
    cases o with
    | some e => exact hinv2
    | none =>
      have hnm := removeSeats_ok_not_mem dto.seats db1 db2 hrm
      have hmb := removeSeats_ok_mem_before dto.seats db1 db2 hrm
      have hpw := removeSeats_ok_pairwise dto.seats db1 db2 hrm
      have hre : ∀ q, rowExists db2 q = rowExists db1 q := by
        intro q
        have hst := removeSeats_rowExists dto.seats db1 q
        rw [hrm] at hst
        exact hst
      apply Inv_append_booking db2 _ hinv2
      · intro sb hsb
        obtain ⟨t, htl, rfl⟩ := List.mem_map.1 hsb
        exact hnm t htl
      · intro sb hsb
        obtain ⟨t, htl, rfl⟩ := List.mem_map.1 hsb
        rw [hre]
        exact (hmb t htl).2
      · exact List.pairwise_map.2 hpw
      · intro sb hsb t htm
        obtain ⟨t0, ht0, rfl⟩ := List.mem_map.1 htm
        have hsb1 : sb ∈ liveSeats db1 := by
          rw [← liveSeats_of_bookings_eq hb2]
          exact hsb
        by_cases hid : sb.seatRowId = t0.seatRowId
        · by_cases hnum2 : sb.seatNumber = t0.seatNumber
          · exfalso
            have hmemb := (hmb t0 ht0).1
            have hnotb := h.1 sb hsb1
            rw [hid, hnum2] at hnotb
            exact hnotb hmemb
          · exact Or.inr hnum2
        · exact Or.inl hid

theorem inv_createBooking (db : DB) (dto : CreateBookingDto) (receipt : ReceiptUpload)
    (h : Inv db) : Inv (createBooking db dto receipt).1 := by
  have hinv1 : Inv (findOrCreateUser db dto.name dto.email dto.phone).1 := by
    obtain ⟨hr, hb, hn⟩ := findOrCreateUser_structural db dto.name dto.email dto.phone
    refine Inv_shrink hb ?_ (fun q => rowExists_congr hr q) ?_ hn h
    · intro q
      rw [rowSeats_congr hr q]
      exact fun x hx => hx
    · unfold rowIds
      rw [hr]
  unfold createBooking
  split
  · exact hinv1
  · exact inv_seatTransaction _ _ dto (uploadResultUrl receipt) hinv1

theorem inv_bookingEndpoint (db : DB) (dto : CreateBookingDto) (receipt : ReceiptUpload)
    (h : Inv db) : Inv (bookingEndpoint db dto receipt).1 := by
  unfold bookingEndpoint
  split
  · exact h
  · exact inv_createBooking db dto receipt h

/-- The booking list written back by setPaid. -/
def setPaidBookings (db : DB) (bookingId : Nat) (p : Bool) : List Booking :=
  db.bookings.map (fun b => if b.id == bookingId then { b with isPaid := p } else b)

theorem inv_setPaid (db : DB) (bookingId : Nat) (p : Bool) (h : Inv db) :
    Inv (setPaid db bookingId p).1 := by
  unfold setPaid
  cases hfind : db.bookings.find? (fun b => b.id == bookingId) with
  | none => exact h
  | some b0 =>
    show Inv { db with bookings := setPaidBookings db bookingId p }
    have hlive : liveSeats { db with bookings := setPaidBookings db bookingId p }
        = liveSeats db := by
      show (setPaidBookings db bookingId p).flatMap (fun b => b.seats)
        = db.bookings.flatMap (fun b => b.seats)
      unfold setPaidBookings
      rw [List.flatMap_map]
      congr 1
      funext b
      by_cases hb : b.id == bookingId <;> simp [hb]
    obtain ⟨hc, hu, hl, hf⟩ := h
    refine ⟨?_, ?_, ?_, ?_⟩
    · intro sb hsb
      rw [hlive] at hsb
      exact hc sb hsb
    · unfold UniqueLivePairs
      rw [hlive]
      exact hu
    · intro sb hsb
      rw [hlive] at hsb
      exact hl sb hsb
    · exact hf

theorem findRow_extend (db : DB) (r0 : SeatRow) (n2 : Nat) {rid : Nat}
    (hex : rowExists db rid = true) :
    findRow { db with rows := db.rows ++ [r0], nextId := n2 } rid = findRow db rid := by
  unfold rowExists at hex
  unfold findRow at hex ⊢
  show List.find? (fun r => r.id == rid) (db.rows ++ [r0]) = _
  rw [List.find?_append]
  cases hf : List.find? (fun r => r.id == rid) db.rows with
  | none =>
    rw [hf] at hex
    exact Bool.noConfusion hex
  | some r => rfl

theorem inv_extend (db : DB) (r0 : SeatRow) (hid : r0.id = db.nextId) (h : Inv db) :
    Inv { db with rows := db.rows ++ [r0], nextId := db.nextId + 1 } := by
  obtain ⟨hc, hu, hl, hf⟩ := h
  refine ⟨?_, ?_, ?_, ?_⟩
  · intro sb hsb hmem
    have hex := hl sb hsb
    apply hc sb hsb
    have heq : rowSeats { db with rows := db.rows ++ [r0], nextId := db.nextId + 1 } sb.seatRowId
        = rowSeats db sb.seatRowId := by
      unfold rowSeats
      rw [findRow_extend db r0 (db.nextId + 1) hex]
    rw [heq] at hmem
    exact hmem
  · exact hu
  · intro sb hsb
    have hex := hl sb hsb
    unfold rowExists
    rw [findRow_extend db r0 (db.nextId + 1) hex]
    exact hex
  · intro i hi
    have hids : rowIds { db with rows := db.rows ++ [r0], nextId := db.nextId + 1 }
        = rowIds db ++ [r0.id] := by
      unfold rowIds
      show (db.rows ++ [r0]).map _ = _
      rw [List.map_append]
      rfl
    rw [hids] at hi
    rcases List.mem_append.1 hi with h1 | h2
    · exact Nat.lt_succ_of_lt (hf i h1)
    · have hir : i = r0.id := by simpa using h2
      rw [hir, hid]
      exact Nat.lt_succ_self _

theorem inv_createSeatRow (db : DB) (nm : String) (seats : List Nat) (h : Inv db) :
    Inv (createSeatRow db nm seats).1 := by
  unfold createSeatRow
  split
  · exact h
  · exact inv_extend db { id := db.nextId, name := nm, seats := seats, visible := true } rfl h

theorem inv_filter_bookings (db : DB) (p : Booking → Bool) (h : Inv db) :
    Inv { db with bookings := db.bookings.filter p } := by
  obtain ⟨hc, hu, hl, hf⟩ := h
  have hsub := liveSeats_filter_sublist db.bookings p
  refine ⟨?_, ?_, ?_, ?_⟩
  · intro sb hsb
    exact hc sb (hsub.subset hsb)
  · exact List.Pairwise.sublist hsub hu
  · intro sb hsb
    exact hl sb (hsub.subset hsb)
  · exact hf

theorem deleted_pairs_not_live : ∀ (l : List Booking) (bookingId : Nat) (b : Booking),
    l.find? (fun x => x.id == bookingId) = some b →
    List.Pairwise (fun a c => a.seatRowId ≠ c.seatRowId ∨ a.seatNumber ≠ c.seatNumber)
      (l.flatMap (fun x => x.seats)) →
    ∀ t ∈ b.seats, ∀ sb ∈ (l.filter (fun x => x.id != bookingId)).flatMap (fun x => x.seats),
      t.seatRowId ≠ sb.seatRowId ∨ t.seatNumber ≠ sb.seatNumber := by
  intro l
  induction l with
  | nil => intro id b hfind; exact absurd hfind (by simp)
  | cons x xs ih =>
    intro id b hfind hpw t ht sb hsb
    rw [List.flatMap_cons, List.pairwise_append] at hpw
    obtain ⟨hpw1, hpw2, hcross⟩ := hpw
    cases hxb : (x.id == id) with
    | true =>
      have hbx : b = x := by
        rw [List.find?_cons, hxb] at hfind
        exact (Option.some.inj hfind).symm
      have hfil : List.filter (fun y => y.id != id) (x :: xs)
          = List.filter (fun y => y.id != id) xs := by
        rw [List.filter_cons]
        simp [bne, hxb]
      rw [hfil] at hsb
      have hsb2 : sb ∈ xs.flatMap (fun y => y.seats) :=
        (liveSeats_filter_sublist xs (fun y => y.id != id)).subset hsb
      exact hcross t (hbx ▸ ht) sb hsb2
    | false =>
      have hfind2 : xs.find? (fun y => y.id == id) = some b := by
        rw [List.find?_cons, hxb] at hfind
        exact hfind
      have hfil : List.filter (fun y => y.id != id) (x :: xs)
          = x :: List.filter (fun y => y.id != id) xs := by
        rw [List.filter_cons]
        simp [bne, hxb]
      rw [hfil, List.flatMap_cons] at hsb
      rcases List.mem_append.1 hsb with h1 | h2
      · have htx : t ∈ xs.flatMap (fun y => y.seats) :=
          List.mem_flatMap.2 ⟨b, List.mem_of_find?_eq_some hfind2, ht⟩
        rcases hcross sb h1 t htx with h3 | h3
        · exact Or.inl (Ne.symm h3)
        · exact Or.inr (Ne.symm h3)
      · exact ih id b hfind2 hpw2 t ht sb h2

theorem inv_addSeatsBack : ∀ (l : List SeatBooking) (db : DB), Inv db →
    (∀ t ∈ l, ∀ sb ∈ liveSeats db, t.seatRowId ≠ sb.seatRowId ∨ t.seatNumber ≠ sb.seatNumber) →
    Inv (addSeatsBack db l).1 := by
  intro l
  induction l with
  | nil => intro db h _; exact h
  | cons s rest ih =>
    intro db h hfresh
    unfold addSeatsBack
    cases ha : addSeatToRow db s.seatRowId s.seatNumber with
    | error e => exact h
    | ok db1 =>
      obtain ⟨hab, hau, han, haw, hai⟩ := addSeat_ok_structural ha
      have hlive : liveSeats db1 = liveSeats db := liveSeats_of_bookings_eq hab
      obtain ⟨hc, hu, hl, hf⟩ := h
      have hinv1 : Inv db1 := by
        refine ⟨?_, ?_, ?_, ?_⟩
        · intro sb hsb hmem
          rw [hlive] at hsb
          by_cases hid : sb.seatRowId = s.seatRowId
          · rw [hid] at hmem
            rcases (addSeat_ok_mem_iff ha sb.seatNumber).1 hmem with h1 | h2
            · exact hc sb hsb (by rw [hid]; exact h1)
            · rcases hfresh s (List.mem_cons_self s rest) sb hsb with h3 | h3
              · exact h3 hid.symm
              · exact h3 h2.symm
          · rw [addSeat_ok_other ha hid] at hmem
            exact hc sb hsb hmem
        · unfold UniqueLivePairs
          rw [hlive]
          exact hu
        · intro sb hsb
          rw [hlive] at hsb
          rw [addSeat_ok_rowExists ha]
          exact hl sb hsb
        · intro i hi
          rw [hai] at hi
          rw [han]
          exact hf i hi
      apply ih db1 hinv1
      intro t ht sb hsb
      rw [hlive] at hsb
      exact hfresh t (List.mem_cons_of_mem s ht) sb hsb

theorem inv_deleteBooking (db : DB) (bookingId : Nat) (h : Inv db) :
    Inv (deleteBooking db bookingId).1 := by
  unfold deleteBooking
  cases hfind : db.bookings.find? (fun b => b.id == bookingId) with
  | none => exact h
  | some b =>
    have hinv1 : Inv { db with bookings := db.bookings.filter (fun x => x.id != bookingId) } :=
      inv_filter_bookings db _ h
    have hfresh := deleted_pairs_not_live db.bookings bookingId b hfind h.2.1
    have hinvrel := inv_addSeatsBack b.seats
      { db with bookings := db.bookings.filter (fun x => x.id != bookingId) } hinv1 hfresh
    dsimp only
    cases hrel : (addSeatsBack
        { db with bookings := db.bookings.filter (fun x => x.id != bookingId) } b.seats).2 with
    | some e => exact hinvrel
    | none => exact hinvrel

theorem inv_empty : Inv DB.empty := by
  refine ⟨?_, List.Pairwise.nil, ?_, ?_⟩
  · intro sb hsb
    exact absurd hsb (List.not_mem_nil sb)
  · intro sb hsb
    exact absurd hsb (List.not_mem_nil sb)
  · intro i hi
    exact absurd hi (List.not_mem_nil i)

theorem inv_applyOp (db : DB) (o : Op) (ho : o.isAddSeat = false) (h : Inv db) :
    Inv (applyOp db o) := by
  cases o with
  | book dto receipt => exact inv_bookingEndpoint db dto receipt h
  | cancel bookingId => exact inv_deleteBooking db bookingId h
  | pay bookingId p => exact inv_setPaid db bookingId p h
  | newRow nm seats => exact inv_createSeatRow db nm seats h
  | addSeat rid s => exact absurd ho (by simp [Op.isAddSeat])

theorem inv_runOps : ∀ (ops : List Op) (db : DB), Inv db →
    (∀ o ∈ ops, o.isAddSeat = false) → Inv (runOps db ops) := by
  intro ops
  induction ops with
  | nil => intro db h _; exact h
  | cons o rest ih =>
    intro db h hall
    exact ih (applyOp db o) (inv_applyOp db o (hall o (List.mem_cons_self o rest)) h)
      (fun x hx => hall x (List.mem_cons_of_mem o hx))

/-- C2 (amended): in every state reachable from the empty store through the
exposed operations other than the admin add-seat endpoint, a seat referenced by
a live seat assignment is absent from its row's listed available set.  The
add-seat endpoint itself does not preserve this (see the counterexample): it
checks only membership in the row's array, not live assignments. -/
theorem c2_consistency_reachable_without_addSeat (db : DB) (h : Reachable db) :
    SeatConsistency db := by
  obtain ⟨ops, hall, heq⟩ := h
  have hinv := inv_runOps ops DB.empty inv_empty hall
  rw [heq] at hinv
  exact hinv.1

/-- A state reached by creating row A with seats 1, 2, 3 and booking seat 1. -/
def dbReach : DB :=
  runOps DB.empty [Op.newRow "A" [1, 2, 3], Op.book okDto ReceiptUpload.noFile]

/-- Witness for the amended C2 at dbReach. -/
theorem c2_witness : SeatConsistency dbReach :=
  c2_consistency_reachable_without_addSeat dbReach
    ⟨[Op.newRow "A" [1, 2, 3], Op.book okDto ReceiptUpload.noFile], by decide, rfl⟩

/-- The state reached by creating row A with seat 1, booking that seat, and
then calling the admin add-seat endpoint with (row A, seat 1). -/
def dbBad : DB :=
  runOps DB.empty [Op.newRow "A" [1], Op.book okDto ReceiptUpload.noFile, Op.addSeat 0 1]

/-- C2 (counterexample): dbBad is reachable through the exposed operations, yet
seat 1 of row A is referenced by a live seat assignment while also listed in
the row's available set — the claimed invariant fails after add-seat. -/
theorem c2_addSeat_breaks_consistency : ReachableFull dbBad ∧ ¬ SeatConsistency dbBad :=
  ⟨⟨[Op.newRow "A" [1], Op.book okDto ReceiptUpload.noFile, Op.addSeat 0 1], rfl⟩, by decide⟩

end BookingSeat
